import Mathlib

/-!
Shallow embedding of `src/trade.py` (ffxiv market top-20 reporter).

Conventions:
* All Python datetimes are modelled as integers on a single timeline in
  seconds (`datetime.fromtimestamp` and `datetime.utcnow()` collapse to the
  same line, i.e. a UTC machine); `timedelta(days=1)` is `86400`.
* Network responses are modelled as `Option` values: `none` is a non-200
  response (or transport failure), `some` carries the parsed JSON payload.
* Python's `None` is `Option.none`; truthiness of lists (`if item_ids:`)
  is modelled explicitly as "is `some` and non-empty".
-/

/-- One element of the `entries` array of the market-history JSON:
`{timestamp, pricePerUnit, quantity, onMannequin}`. -/
structure SaleEntry where
  timestamp : ℤ
  pricePerUnit : ℤ
  quantity : ℤ
  onMannequin : Bool
deriving DecidableEq

/-- The aggregation loop of `get_market_data` (src/trade.py lines 18-28):
a full scan over the (already mannequin-filtered) sales, accumulating
`pricePerUnit * quantity` into `daily_revenue` and `quantity` into
`total_quantity` for every entry with `purchase_time >= one_day_ago`. -/
def aggregateEntries (sales : List SaleEntry) (one_day_ago : ℤ) : ℤ × ℤ :=
  sales.foldl
    (fun acc e =>
      if one_day_ago ≤ e.timestamp then
        (acc.1 + e.pricePerUnit * e.quantity, acc.2 + e.quantity)
      else acc)
    (0, 0)

/-- `get_market_data` (src/trade.py lines 11-34): on a 200 response, filter
out `onMannequin` entries, run the daily aggregation loop with
`one_day_ago = now - timedelta(days=1)` where `now = datetime.utcnow()`,
and return the `(daily_revenue, total_quantity)` pair attached to the
history; on any other response return `None`. -/
def get_market_data (response : Option (List SaleEntry)) (now : ℤ) :
    Option (ℤ × ℤ) :=
  match response with
  | some entries =>
      let market_board_sales := entries.filter (fun e => !e.onMannequin)
      some (aggregateEntries market_board_sales (now - 86400))
  | none => none

/-- The loop of `calculate_daily_revenue_and_quantity` (src/trade.py lines
102-108): walk the history in order, accumulating `quantity * pricePerUnit`
and `quantity` while entries satisfy `entry_time >= one_day_ago`, and
`break` at the first entry outside the window. -/
def calcLoop (one_day_ago : ℤ) : List SaleEntry → ℤ × ℤ
  | [] => (0, 0)
  | e :: rest =>
      if one_day_ago ≤ e.timestamp then
        let acc := calcLoop one_day_ago rest
        (e.quantity * e.pricePerUnit + acc.1, e.quantity + acc.2)
      else (0, 0)

/-- `calculate_daily_revenue_and_quantity` (src/trade.py lines 96-110):
sets `one_day_ago = now - timedelta(days=1)` (with `now = datetime.now()`)
and runs the short-circuiting loop. -/
def calculate_daily_revenue_and_quantity (recent_history : List SaleEntry)
    (now : ℤ) : ℤ × ℤ :=
  calcLoop (now - 86400) recent_history

/- Note: `get_item_name_from_cafemaker` and `get_item_name_from_xivapi`
(src/trade.py lines 37-55) are plain network lookups returning the `Name`
field on a 200 response and `None` otherwise; they are modelled as
function parameters `cafemaker, xivapi : ℤ → Option String` of the
resolver. -/

/-- Python `str.strip()` with no argument: remove leading and trailing
whitespace characters. -/
def pyStrip (s : String) : String :=
  String.mk
    (((s.data.dropWhile Char.isWhitespace).reverse.dropWhile
        Char.isWhitespace).reverse)

/-- `get_item_name` (src/trade.py lines 57-61): take the cafemaker name;
if it is `None` or strips to the empty string, replace it by the xivapi
name; return the result. -/
def get_item_name (cafemaker xivapi : ℤ → Option String) (item_id : ℤ) :
    Option String :=
  match cafemaker item_id with
  | none => xivapi item_id
  | some n => if pyStrip n = "" then xivapi item_id else some n

/-- The record built by `fetch_item` (src/trade.py lines 69-74):
`{id, name, daily_revenue, total_quantity}`. -/
structure EnrichedItem where
  id : ℤ
  name : Option String
  daily_revenue : ℤ
  total_quantity : ℤ
deriving DecidableEq

/-- `fetch_item` (src/trade.py lines 64-76): fetch market data for the id;
if the fetch succeeded (the returned dict is non-`None`, hence truthy),
resolve the name and build the record; otherwise return `None`.
The market fetch is modelled as a function `market : ℤ → Option (ℤ × ℤ)`
giving the `(daily_revenue, total_quantity)` of `get_market_data`, and the
whole name resolution as `nameOf : ℤ → Option String`. -/
def fetch_item (market : ℤ → Option (ℤ × ℤ)) (nameOf : ℤ → Option String)
    (item_id : ℤ) : Option EnrichedItem :=
  match market item_id with
  | some rq =>
      some { id := item_id, name := nameOf item_id,
             daily_revenue := rq.1, total_quantity := rq.2 }
  | none => none

/-- `get_top_items` (src/trade.py lines 78-84): map `fetch_item` over the
ids (`executor.map` yields results in input order) and keep the non-`None`
results. -/
def get_top_items (market : ℤ → Option (ℤ × ℤ))
    (nameOf : ℤ → Option String) (item_ids : List ℤ) : List EnrichedItem :=
  let items := item_ids.map (fetch_item market nameOf)
  items.filterMap (fun it => it)

/-- `get_all_marketable_item_ids` (src/trade.py lines 128-136): on a 200
response keep only ids strictly greater than 34000; otherwise `None`. -/
def get_all_marketable_item_ids (response : Option (List ℤ)) :
    Option (List ℤ) :=
  match response with
  | some all_item_ids => some (all_item_ids.filter (fun i => 34000 < i))
  | none => none

/-- Python `sorted(items, key=key, reverse=True)` (src/trade.py lines 167
and 171): a stable descending sort by the key. Python's sort is stable, so
it is modelled by insertion sort with the comparator `key b ≤ key a`, which
is proved below to be sorted, a permutation, and stable. -/
def sortDescBy (key : EnrichedItem → ℤ) (items : List EnrichedItem) :
    List EnrichedItem :=
  items.insertionSort (fun a b => key b ≤ key a)

/-- The carry-forward narrowing expression (src/trade.py line 163):
`list(set([item['id'] for item in prev_revenue] + [item['id'] for item in
prev_quantity]))`. A Python `set` of a list holds each element once with
unspecified order; it is modelled as deduplication of the concatenation. -/
def narrowed_item_ids (prev_revenue prev_quantity : List EnrichedItem) :
    List ℤ :=
  ((prev_revenue.map (fun it => it.id)) ++
    (prev_quantity.map (fun it => it.id))).dedup

/-- Observable outcome of one run of the `__main__` block (src/trade.py
lines 142-173): the exit code if the run aborted, each file write (`none`
if never written), and the item-id list handed to `get_top_items`. -/
structure RunResult where
  exitCode : Option ℕ
  cacheWritten : Option (List ℤ)
  itemIdsUsed : Option (List ℤ)
  reportRevenue : Option (List EnrichedItem)
  carryRevenue : Option (List EnrichedItem)
  reportQuantity : Option (List EnrichedItem)
  carryQuantity : Option (List EnrichedItem)
deriving DecidableEq

/-- The `exit(1)` outcome at src/trade.py line 156: nothing written, no
enrichment performed. -/
def abortRun : RunResult :=
  { exitCode := some 1, cacheWritten := none, itemIdsUsed := none,
    reportRevenue := none, carryRevenue := none,
    reportQuantity := none, carryQuantity := none }

/-- The tail of the `__main__` block once an id list exists (src/trade.py
lines 160-173): narrow to the previous-day top-50 union when it is not
Saturday and both carry files exist, enrich, sort each metric descending,
write the top-20 report and the top-50 carry file for each metric. -/
def finishRun (cacheWritten : Option (List ℤ)) (is_Sat : Bool)
    (prev_revenue prev_quantity : Option (List EnrichedItem))
    (market : ℤ → Option (ℤ × ℤ)) (nameOf : ℤ → Option String)
    (item_ids0 : List ℤ) : RunResult :=
  let item_ids :=
    match is_Sat, prev_revenue, prev_quantity with
    | false, some r, some q => narrowed_item_ids r q
    | _, _, _ => item_ids0
  let top_items := get_top_items market nameOf item_ids
  let top_items_revenue :=
    (sortDescBy (fun it => it.daily_revenue) top_items).take 50
  let top_items_quantity :=
    (sortDescBy (fun it => it.total_quantity) top_items).take 50
  { exitCode := none, cacheWritten := cacheWritten,
    itemIdsUsed := some item_ids,
    reportRevenue := some (top_items_revenue.take 20),
    carryRevenue := some top_items_revenue,
    reportQuantity := some (top_items_quantity.take 20),
    carryQuantity := some top_items_quantity }

/-- The `__main__` block (src/trade.py lines 142-173). Inputs:
`is_Sat` is the refresh-day flag; `cachedIds` is the content of
`item_ids.json` if the file exists; `catalogResponse` is the raw
`/api/marketable` response; `prev_revenue` / `prev_quantity` are the carry
files if they exist; `market` / `nameOf` as in `fetch_item`.
On a refresh day or missing cache, fetch the catalog; `if item_ids:` is
Python truthiness, so both a failed fetch (`None`) and an empty filtered
list abort with `exit(1)` and write nothing. -/
def mainRun (is_Sat : Bool) (cachedIds : Option (List ℤ))
    (catalogResponse : Option (List ℤ))
    (prev_revenue prev_quantity : Option (List EnrichedItem))
    (market : ℤ → Option (ℤ × ℤ)) (nameOf : ℤ → Option String) :
    RunResult :=
  if is_Sat || cachedIds.isNone then
    match get_all_marketable_item_ids catalogResponse with
    | some item_ids =>
        if item_ids.isEmpty then abortRun
        else
          finishRun (some item_ids) is_Sat prev_revenue prev_quantity
            market nameOf item_ids
    | none => abortRun
  else
    finishRun none is_Sat prev_revenue prev_quantity market nameOf
      (cachedIds.getD [])

/-- Helper: the full-scan loop computes the windowed sums, for any starting
accumulator. -/
theorem aggregateEntries_foldl_acc (sales : List SaleEntry) (cutoff : ℤ)
    (a b : ℤ) :
    sales.foldl
        (fun acc e =>
          if cutoff ≤ e.timestamp then
            (acc.1 + e.pricePerUnit * e.quantity, acc.2 + e.quantity)
          else acc)
        (a, b) =
      (a + ((sales.filter (fun e => decide (cutoff ≤ e.timestamp))).map
          (fun e => e.pricePerUnit * e.quantity)).sum,
       b + ((sales.filter (fun e => decide (cutoff ≤ e.timestamp))).map
          (fun e => e.quantity)).sum) := by
  induction sales generalizing a b with
  | nil => simp
  | cons e rest ih =>
      by_cases h : cutoff ≤ e.timestamp
      · simp [h, ih]
        exact ⟨by ring, by ring⟩
      · simp [h, ih]

/-- Helper: `aggregateEntries` equals the pair of windowed sums. -/
theorem aggregateEntries_eq (sales : List SaleEntry) (cutoff : ℤ) :
    aggregateEntries sales cutoff =
      (((sales.filter (fun e => decide (cutoff ≤ e.timestamp))).map
          (fun e => e.pricePerUnit * e.quantity)).sum,
       ((sales.filter (fun e => decide (cutoff ≤ e.timestamp))).map
          (fun e => e.quantity)).sum) := by
  have h := aggregateEntries_foldl_acc sales cutoff 0 0
  simpa [aggregateEntries] using h

/-- Helper: on input sorted descending by timestamp, the short-circuiting
loop computes the full windowed sums. -/
theorem calcLoop_sorted_eq (entries : List SaleEntry) (cutoff : ℤ)
    (hs : entries.Pairwise (fun a b => b.timestamp ≤ a.timestamp)) :
    calcLoop cutoff entries =
      (((entries.filter (fun e => decide (cutoff ≤ e.timestamp))).map
          (fun e => e.pricePerUnit * e.quantity)).sum,
       ((entries.filter (fun e => decide (cutoff ≤ e.timestamp))).map
          (fun e => e.quantity)).sum) := by
  induction entries with
  | nil => simp [calcLoop]
  | cons e rest ih =>
      rcases List.pairwise_cons.mp hs with ⟨hhead, htail⟩
      by_cases h : cutoff ≤ e.timestamp
      · simp [calcLoop, h, ih htail]
        ring
      · have hrest : rest.filter (fun x => decide (cutoff ≤ x.timestamp)) = [] := by
          refine List.filter_eq_nil_iff.mpr fun a ha => ?_
          have : a.timestamp ≤ e.timestamp := hhead a ha
          simp only [decide_eq_true_eq]
          omega
        simp [calcLoop, h, hrest]

/-- Helper: `orderedInsert` with the descending-by-key comparator places the
new element before every equal-key element already present (those skipped
have a strictly larger key), so per-key filters behave like `cons`. -/
theorem filter_orderedInsert_descBy (key : EnrichedItem → ℤ) (k : ℤ)
    (a : EnrichedItem) (l : List EnrichedItem) :
    (l.orderedInsert (fun x y => key y ≤ key x) a).filter
        (fun it => key it == k) =
      if key a = k then a :: l.filter (fun it => key it == k)
      else l.filter (fun it => key it == k) := by
  induction l with
  | nil =>
      by_cases hk : key a = k <;>
        simp [List.orderedInsert, List.filter_cons, hk]
  | cons b l ih =>
      by_cases hab : key b ≤ key a
      · have hins : (b :: l).orderedInsert (fun x y => key y ≤ key x) a
            = a :: b :: l := by
          simp [List.orderedInsert, hab]
        rw [hins, List.filter_cons]
        by_cases hk : key a = k <;> simp [hk]
      · have hins : (b :: l).orderedInsert (fun x y => key y ≤ key x) a
            = b :: l.orderedInsert (fun x y => key y ≤ key x) a := by
          simp [List.orderedInsert, hab]
        rw [hins, List.filter_cons, ih]
        by_cases hk : key a = k
        · have hbk : ¬ (key b = k) := by
            intro hb
            exact hab (le_of_eq (hb.trans hk.symm))
          simp [hk, hbk, List.filter_cons]
        · by_cases hbk : key b = k <;>
            simp [hk, hbk, List.filter_cons]

/-- Helper: the stable descending sort preserves, for every key value, the
sublist of elements having that key (stability). -/
theorem filter_sortDescBy (key : EnrichedItem → ℤ) (k : ℤ)
    (items : List EnrichedItem) :
    (sortDescBy key items).filter (fun it => key it == k) =
      items.filter (fun it => key it == k) := by
  induction items with
  | nil => rfl
  | cons a l ih =>
      show ((sortDescBy key l).orderedInsert
          (fun x y => key y ≤ key x) a).filter (fun it => key it == k) = _
      rw [filter_orderedInsert_descBy]
      by_cases hk : key a = k <;> simp [hk, ih, List.filter_cons]

/-- Helper: the stable descending sort is a permutation of its input. -/
theorem sortDescBy_perm (key : EnrichedItem → ℤ)
    (items : List EnrichedItem) : (sortDescBy key items).Perm items :=
  List.perm_insertionSort _ items

/-- Helper: the stable descending sort is nonincreasing in the key. -/
theorem sortDescBy_sorted (key : EnrichedItem → ℤ)
    (items : List EnrichedItem) :
    (sortDescBy key items).Sorted (fun a b => key b ≤ key a) := by
  haveI : IsTotal EnrichedItem (fun a b => key b ≤ key a) :=
    ⟨fun a b => le_total (key b) (key a)⟩
  haveI : IsTrans EnrichedItem (fun a b => key b ≤ key a) :=
    ⟨fun _ _ _ hab hbc => le_trans hbc hab⟩
  exact List.sorted_insertionSort _ items

/-- Helper: the pipeline output is, in input order, one record per id whose
market fetch succeeded, built from that id's market data and name. -/
theorem get_top_items_eq (market : ℤ → Option (ℤ × ℤ))
    (nameOf : ℤ → Option String) (item_ids : List ℤ) :
    get_top_items market nameOf item_ids =
      (item_ids.filter (fun i => (market i).isSome)).map
        (fun i => { id := i, name := nameOf i,
                    daily_revenue := ((market i).getD (0, 0)).1,
                    total_quantity := ((market i).getD (0, 0)).2 }) := by
  induction item_ids with
  | nil => rfl
  | cons i l ih =>
      cases h : market i with
      | none =>
          simp only [get_top_items, List.map_cons, List.filterMap_cons,
            fetch_item, h, List.filter_cons] at ih ⊢
          simpa [h] using ih
      | some rq =>
          simp only [get_top_items, List.map_cons, List.filterMap_cons,
            fetch_item, h, List.filter_cons] at ih ⊢
          simpa [h] using ih

/-- C1 (amended): for every successful market-history fetch,
`get_market_data` excludes mannequin-flagged entries before aggregating and
returns `daily_revenue` equal to the sum of `pricePerUnit * quantity` and
`total_quantity` equal to the sum of `quantity` over exactly those remaining
entries whose timestamp is at least `now − 24h` (the code imposes no upper
bound at `now`); for an empty entry list both results are 0, and a failed
fetch yields `none`. -/
theorem get_market_data_window_sums (entries : List SaleEntry) (now : ℤ) :
    get_market_data (some entries) now =
      some
        (((entries.filter (fun e =>
              !e.onMannequin && decide (now - 86400 ≤ e.timestamp))).map
            (fun e => e.pricePerUnit * e.quantity)).sum,
         ((entries.filter (fun e =>
              !e.onMannequin && decide (now - 86400 ≤ e.timestamp))).map
            (fun e => e.quantity)).sum) ∧
    get_market_data (some []) now = some (0, 0) ∧
    get_market_data none now = none := by
  refine ⟨?_, by simp [get_market_data, aggregateEntries], rfl⟩
  have hf :
      entries.filter (fun e =>
          decide (now - 86400 ≤ e.timestamp) && !e.onMannequin) =
        entries.filter (fun e =>
          !e.onMannequin && decide (now - 86400 ≤ e.timestamp)) :=
    List.filter_congr (fun a _ => Bool.and_comm _ _)
  simp only [get_market_data, aggregateEntries_eq, List.filter_filter, hf]

/-- C1 counterexample: a non-mannequin entry timestamped 10 seconds after
`now` does not lie "within the 24 hours before the current UTC time", yet
`get_market_data` counts it, so the claimed both-sided-window equality
fails at this input: the code returns `(10, 2)` where the claim demands
the windowed sums `(0, 0)`. -/
theorem get_market_data_counts_future_entries :
    get_market_data (some [⟨1000010, 5, 2, false⟩]) 1000000 ≠
      some
        ((((([⟨1000010, 5, 2, false⟩] : List SaleEntry)).filter (fun e =>
              !e.onMannequin && (decide (1000000 - 86400 ≤ e.timestamp) &&
                decide (e.timestamp ≤ 1000000)))).map
            (fun e => e.pricePerUnit * e.quantity)).sum,
         ((([⟨1000010, 5, 2, false⟩] : List SaleEntry)).filter (fun e =>
              !e.onMannequin && (decide (1000000 - 86400 ≤ e.timestamp) &&
                decide (e.timestamp ≤ 1000000)))).map
            (fun e => e.quantity) |>.sum) := by
  decide

/-- C3 (amended): for every entry sequence sorted descending by timestamp,
`calculate_daily_revenue_and_quantity` returns `dailyRevenue` equal to the
sum of `pricePerUnit * quantity` and `totalQuantity` equal to the sum of
`quantity` over all entries with timestamp at least `now − 24h`; on
unsorted input the loop stops at the first out-of-window entry, so
permuting the input may change the result. -/
theorem calculate_daily_revenue_sorted (entries : List SaleEntry) (now : ℤ)
    (hs : entries.Pairwise (fun a b => b.timestamp ≤ a.timestamp)) :
    calculate_daily_revenue_and_quantity entries now =
      (((entries.filter (fun e => decide (now - 86400 ≤ e.timestamp))).map
          (fun e => e.pricePerUnit * e.quantity)).sum,
       ((entries.filter (fun e => decide (now - 86400 ≤ e.timestamp))).map
          (fun e => e.quantity)).sum) :=
  calcLoop_sorted_eq entries (now - 86400) hs

/-- C3 witness: on a concrete descending-sorted history the function
returns the full windowed sums. -/
theorem calculate_daily_revenue_sorted_witness :
    calculate_daily_revenue_and_quantity
        [⟨200000, 7, 3, false⟩, ⟨0, 7, 3, false⟩] 200000 = (21, 3) := by
  rw [calculate_daily_revenue_sorted
    [⟨200000, 7, 3, false⟩, ⟨0, 7, 3, false⟩] 200000 (by decide)]
  decide

/-- C3 counterexample: with the out-of-window entry first, the loop breaks
immediately and returns `(0, 0)`, not the full-scan windowed sums `(21, 3)`
the claim demands for every input order. -/
theorem calculate_daily_revenue_not_order_invariant :
    calculate_daily_revenue_and_quantity
        [⟨0, 7, 3, false⟩, ⟨200000, 7, 3, false⟩] 200000 ≠
      (((([⟨0, 7, 3, false⟩, ⟨200000, 7, 3, false⟩] : List SaleEntry).filter
          (fun e => decide (200000 - 86400 ≤ e.timestamp) &&
            decide (e.timestamp ≤ 200000))).map
          (fun e => e.pricePerUnit * e.quantity)).sum,
       ((([⟨0, 7, 3, false⟩, ⟨200000, 7, 3, false⟩] : List SaleEntry).filter
          (fun e => decide (200000 - 86400 ≤ e.timestamp) &&
            decide (e.timestamp ≤ 200000))).map
          (fun e => e.quantity)).sum) := by
  decide

/-- C4: on every entry sequence sorted descending by timestamp, the
short-circuiting `calculate_daily_revenue_and_quantity` and the full-scan
aggregation loop inside `get_market_data` (invoked there with
`one_day_ago = now − 24h`) produce identical `(dailyRevenue,
totalQuantity)` pairs. -/
theorem shortcircuit_eq_fullscan_on_sorted (entries : List SaleEntry)
    (now : ℤ)
    (hs : entries.Pairwise (fun a b => b.timestamp ≤ a.timestamp)) :
    calculate_daily_revenue_and_quantity entries now =
      aggregateEntries entries (now - 86400) :=
  (calcLoop_sorted_eq entries (now - 86400) hs).trans
    (aggregateEntries_eq entries (now - 86400)).symm

/-- C4 witness: the two aggregations agree on a concrete descending-sorted
history. -/
theorem shortcircuit_eq_fullscan_on_sorted_witness :
    calculate_daily_revenue_and_quantity
        [⟨200000, 7, 3, false⟩, ⟨150000, 2, 5, false⟩, ⟨0, 7, 3, false⟩]
        200000 =
      aggregateEntries
        [⟨200000, 7, 3, false⟩, ⟨150000, 2, 5, false⟩, ⟨0, 7, 3, false⟩]
        (200000 - 86400) :=
  shortcircuit_eq_fullscan_on_sorted _ 200000 (by decide)

/-- C2: for every list of item ids, the enrichment pipeline outputs, in
input order, exactly one `EnrichedItem` per id whose market fetch succeeds
— carrying that id, its resolved name, and the fetched figures — and
nothing for any id whose fetch fails; an id whose fetch succeeds but whose
name resolution yields `none` still appears, with a `none` name and the
fetched `daily_revenue` and `total_quantity`. -/
theorem get_top_items_successes_only (market : ℤ → Option (ℤ × ℤ))
    (nameOf : ℤ → Option String) (item_ids : List ℤ) :
    get_top_items market nameOf item_ids =
      (item_ids.filter (fun i => (market i).isSome)).map
        (fun i => { id := i, name := nameOf i,
                    daily_revenue := ((market i).getD (0, 0)).1,
                    total_quantity := ((market i).getD (0, 0)).2 }) ∧
    (∀ i r q, i ∈ item_ids → market i = some (r, q) → nameOf i = none →
      ({ id := i, name := none, daily_revenue := r,
         total_quantity := q } : EnrichedItem) ∈
        get_top_items market nameOf item_ids) ∧
    (∀ it, it ∈ get_top_items market nameOf item_ids →
      it.id ∈ item_ids ∧
      market it.id = some (it.daily_revenue, it.total_quantity) ∧
      it.name = nameOf it.id) := by
  refine ⟨get_top_items_eq market nameOf item_ids, ?_, ?_⟩
  · intro i r q hmem hmi hni
    rw [get_top_items_eq]
    refine List.mem_map.mpr ⟨i, List.mem_filter.mpr ⟨hmem, ?_⟩, ?_⟩
    · simp [hmi]
    · simp [hmi, hni]
  · intro it hit
    rw [get_top_items_eq] at hit
    rcases List.mem_map.mp hit with ⟨i, hi, hrec⟩
    rcases List.mem_filter.mp hi with ⟨hmem, hsome⟩
    rcases Option.isSome_iff_exists.mp (by simpa using hsome) with ⟨rq, hrq⟩
    subst hrec
    simp [hrq, hmem]

/-- C2 witness: with two ids where only id 7 fetches successfully and name
resolution fails, the pipeline output contains the record for id 7 with a
null name and the fetched figures. -/
theorem get_top_items_successes_only_witness :
    ({ id := 7, name := none, daily_revenue := 3,
       total_quantity := 2 } : EnrichedItem) ∈
      get_top_items (fun i => if i = 7 then some (3, 2) else none)
        (fun _ => none) [5, 7] :=
  (get_top_items_successes_only
      (fun i => if i = 7 then some (3, 2) else none)
      (fun _ => none) [5, 7]).2.1 7 3 2 (by decide) (by decide) rfl

/-- C5 (amended): `get_item_name` returns the primary (cafemaker) source's
name whenever that name is non-empty after stripping whitespace (Python
`str.strip()`); when the primary yields `none` or a name that strips to
the empty string, it returns exactly what the secondary (xivapi) source
yields, including `none`; given primary `""` and secondary `"Iron Ore"`
it returns `"Iron Ore"`, and given primary `"铁矿"` it returns `"铁矿"`
regardless of the secondary. -/
theorem get_item_name_fallback (cafemaker xivapi : ℤ → Option String)
    (item_id : ℤ) :
    (∀ s, cafemaker item_id = some s → pyStrip s ≠ "" →
      get_item_name cafemaker xivapi item_id = some s) ∧
    (cafemaker item_id = none →
      get_item_name cafemaker xivapi item_id = xivapi item_id) ∧
    (∀ s, cafemaker item_id = some s → pyStrip s = "" →
      get_item_name cafemaker xivapi item_id = xivapi item_id) ∧
    get_item_name (fun _ => some "") xivapi item_id = xivapi item_id ∧
    get_item_name (fun _ => some "铁矿") xivapi item_id = some "铁矿" := by
  refine ⟨?_, ?_, ?_, ?_, ?_⟩
  · intro s hs hne
    simp [get_item_name, hs, hne]
  · intro h
    simp [get_item_name, h]
  · intro s hs he
    simp [get_item_name, hs, he]
  · simp [get_item_name, pyStrip]
  · have h : pyStrip "铁矿" ≠ "" := by decide
    simp [get_item_name, h]

/-- C5 witness: with primary `" "` (stripping to empty) and secondary
`"Iron Ore"`, the resolver returns the secondary's name. -/
theorem get_item_name_fallback_witness :
    get_item_name (fun _ => some " ") (fun _ => some "Iron Ore") 1 =
      some "Iron Ore" :=
  (get_item_name_fallback (fun _ => some " ")
      (fun _ => some "Iron Ore") 1).2.2.1 " " rfl (by decide)

/-- C5 counterexample: the claim says the primary's name is returned
whenever it is non-empty, but for the non-empty whitespace name `" "` the
code strips it to `""` and falls back to the secondary instead. -/
theorem get_item_name_whitespace_primary_dropped :
    (" " : String) ≠ "" ∧
    get_item_name (fun _ => some " ") (fun _ => some "Iron Ore") 1 ≠
      some " " := by
  constructor
  · decide
  · decide

/-- C6: ranking sorts descending by the chosen metric with ties kept in
their original relative order and then truncates: the sorted list is a
permutation of the input, is nonincreasing in the metric, preserves the
sublist of items having any fixed metric value (stability), the top-20
report list is a prefix of the top-50 carry-forward list, and items with
revenues `[5,5,3,10]` rank as `[10,5,5,3]` with the two 5s in input
order. -/
theorem ranking_stable_desc_truncated (key : EnrichedItem → ℤ)
    (items : List EnrichedItem) :
    (sortDescBy key items).Perm items ∧
    (sortDescBy key items).Sorted (fun a b => key b ≤ key a) ∧
    (∀ k : ℤ, (sortDescBy key items).filter (fun it => key it == k) =
      items.filter (fun it => key it == k)) ∧
    ((sortDescBy key items).take 50).take 20 =
      (sortDescBy key items).take 20 ∧
    (sortDescBy (fun it => it.daily_revenue)
        [⟨1, none, 5, 0⟩, ⟨2, none, 5, 0⟩, ⟨3, none, 3, 0⟩,
         ⟨4, none, 10, 0⟩]).map (fun it => it.id) = [4, 1, 2, 3] := by
  refine ⟨sortDescBy_perm key items, sortDescBy_sorted key items,
    fun k => filter_sortDescBy key k items, ?_, by decide⟩
  simp [List.take_take]

/-- C7: on a non-refresh day, whenever both carry-forward files exist and
the run reaches enrichment, the item-id set passed to enrichment is exactly
the union of the ids in the previous run's top-50-by-revenue and
top-50-by-quantity lists (each id once). -/
theorem nonrefresh_working_set_is_union (cachedIds catalogResponse :
      Option (List ℤ)) (prev_revenue prev_quantity : List EnrichedItem)
    (market : ℤ → Option (ℤ × ℤ)) (nameOf : ℤ → Option String)
    (ids : List ℤ)
    (h : (mainRun false cachedIds catalogResponse (some prev_revenue)
        (some prev_quantity) market nameOf).itemIdsUsed = some ids) :
    ids.toFinset =
      (prev_revenue.map (fun it => it.id)).toFinset ∪
        (prev_quantity.map (fun it => it.id)).toFinset ∧
    ids.Nodup ∧
    ids = narrowed_item_ids prev_revenue prev_quantity := by
  have hids : ids = narrowed_item_ids prev_revenue prev_quantity := by
    cases cachedIds with
    | some c =>
        simp [mainRun, finishRun] at h
        exact h.symm
    | none =>
        cases catalogResponse with
        | none =>
            simp [mainRun, get_all_marketable_item_ids, abortRun] at h
        | some raw =>
            by_cases he : (raw.filter (fun i => 34000 < i)).isEmpty
            · simp [mainRun, get_all_marketable_item_ids, he, abortRun] at h
            · simp [mainRun, get_all_marketable_item_ids, he, finishRun]
                at h
              exact h.symm
  subst hids
  refine ⟨?_, List.nodup_dedup _, rfl⟩
  ext x
  simp [narrowed_item_ids, List.mem_dedup]

/-- C7 witness: previous revenue ids `{1,2}` and quantity ids `{2,3}`
yield the working set `{1,2,3}` on a non-refresh day. -/
theorem nonrefresh_working_set_is_union_witness :
    ([1, 2, 3] : List ℤ).toFinset =
      (([⟨1, none, 0, 0⟩, ⟨2, none, 0, 0⟩] : List EnrichedItem).map
          (fun it => it.id)).toFinset ∪
        (([⟨2, none, 0, 0⟩, ⟨3, none, 0, 0⟩] : List EnrichedItem).map
          (fun it => it.id)).toFinset :=
  (nonrefresh_working_set_is_union (some []) none
      [⟨1, none, 0, 0⟩, ⟨2, none, 0, 0⟩]
      [⟨2, none, 0, 0⟩, ⟨3, none, 0, 0⟩]
      (fun _ => none) (fun _ => none) [1, 2, 3] (by decide)).1

/-- C8: when the full-catalog fetch is required (refresh day or missing
cache) and that fetch fails (non-200 response), the run terminates with
exit code 1 before any per-item enrichment work and writes no cache,
carry-forward, or report file. -/
theorem catalog_fetch_failure_aborts (is_Sat : Bool)
    (cachedIds : Option (List ℤ))
    (prev_revenue prev_quantity : Option (List EnrichedItem))
    (market : ℤ → Option (ℤ × ℤ)) (nameOf : ℤ → Option String)
    (hreq : is_Sat = true ∨ cachedIds = none) :
    (mainRun is_Sat cachedIds none prev_revenue prev_quantity market
        nameOf).exitCode = some 1 ∧
    (mainRun is_Sat cachedIds none prev_revenue prev_quantity market
        nameOf).itemIdsUsed = none ∧
    (mainRun is_Sat cachedIds none prev_revenue prev_quantity market
        nameOf).cacheWritten = none ∧
    (mainRun is_Sat cachedIds none prev_revenue prev_quantity market
        nameOf).reportRevenue = none ∧
    (mainRun is_Sat cachedIds none prev_revenue prev_quantity market
        nameOf).carryRevenue = none ∧
    (mainRun is_Sat cachedIds none prev_revenue prev_quantity market
        nameOf).reportQuantity = none ∧
    (mainRun is_Sat cachedIds none prev_revenue prev_quantity market
        nameOf).carryQuantity = none := by
  rcases hreq with h | h <;> subst h <;>
    simp [mainRun, get_all_marketable_item_ids, abortRun]

/-- C8 witness: on a refresh day with a failed catalog fetch, the run
exits with code 1. -/
theorem catalog_fetch_failure_aborts_witness :
    (mainRun true (some []) none none none (fun _ => none)
        (fun _ => none)).exitCode = some 1 :=
  (catalog_fetch_failure_aborts true (some []) none none
      (fun _ => none) (fun _ => none) (Or.inl rfl)).1

/-- C10: when the catalog fetch is required and returns successfully, the
run still exits with code 1 — writing nothing — if the filtered catalog
(ids strictly greater than 34000) is empty, and writes the cache file with
exactly the filtered list (proceeding with exit code unset) when the
filtered list is non-empty. -/
theorem catalog_empty_filter_behaviour (is_Sat : Bool)
    (cachedIds : Option (List ℤ)) (raw : List ℤ)
    (prev_revenue prev_quantity : Option (List EnrichedItem))
    (market : ℤ → Option (ℤ × ℤ)) (nameOf : ℤ → Option String)
    (hreq : is_Sat = true ∨ cachedIds = none) :
    (raw.filter (fun i => 34000 < i) = [] →
      (mainRun is_Sat cachedIds (some raw) prev_revenue prev_quantity
          market nameOf).exitCode = some 1 ∧
      (mainRun is_Sat cachedIds (some raw) prev_revenue prev_quantity
          market nameOf).cacheWritten = none ∧
      (mainRun is_Sat cachedIds (some raw) prev_revenue prev_quantity
          market nameOf).itemIdsUsed = none) ∧
    (raw.filter (fun i => 34000 < i) ≠ [] →
      (mainRun is_Sat cachedIds (some raw) prev_revenue prev_quantity
          market nameOf).cacheWritten =
        some (raw.filter (fun i => 34000 < i)) ∧
      (mainRun is_Sat cachedIds (some raw) prev_revenue prev_quantity
          market nameOf).exitCode = none) := by
  rcases hreq with h | h <;> subst h <;>
    refine ⟨fun he => ?_, fun hne => ?_⟩ <;>
    simp [mainRun, get_all_marketable_item_ids, abortRun, finishRun,
      List.isEmpty_iff, *]

/-- C10 witness: a successful catalog fetch whose filtered list is empty
exits with code 1 and writes no cache; one with a non-empty filtered list
writes exactly that list to the cache. -/
theorem catalog_empty_filter_behaviour_witness :
    (mainRun true none (some [1]) none none (fun _ => none)
        (fun _ => none)).exitCode = some 1 ∧
    (mainRun true none (some [40000]) none none (fun _ => none)
        (fun _ => none)).cacheWritten = some [40000] := by
  constructor
  · exact ((catalog_empty_filter_behaviour true none [1] none none
      (fun _ => none) (fun _ => none) (Or.inl rfl)).1 (by decide)).1
  · have h := ((catalog_empty_filter_behaviour true none [40000] none none
      (fun _ => none) (fun _ => none) (Or.inl rfl)).2 (by decide)).1
    simpa using h
